import Mathlib

/-!
Verification development for the Smart_Acad question-paper generation
pipeline (`src/ktu_question_generator/__init__.py`, class
`QuestionPaperGenerator`).

The Python code is shallowly embedded over `List Char`: each regex used by
the source is translated into an executable matching function with the
same (leftmost, greedy/lazy, backtracking) semantics on the inputs the
source feeds it, and each method becomes a total Lean function (with
`Option`/`Except` marking the spots where the Python could raise).
Strings are modelled at the ASCII level: Python's `\s` and `str.strip`
whitespace class is modelled by `pyIsSpace`, `str.isdigit` by ASCII
digits.
-/

namespace SmartAcad

/-- Whitespace class of Python's `\s` regex class and `str.strip`
(ASCII fragment). -/
def pyIsSpace (c : Char) : Bool :=
  c == ' ' || c == '\t' || c == '\n' || c == '\r' || c == '\x0b' || c == '\x0c'

/-- Removal of trailing whitespace, second half of Python `str.strip()`. -/
def dropTrailWs (l : List Char) : List Char :=
  (l.reverse.dropWhile pyIsSpace).reverse

/-- Python `str.strip()`. -/
def pyStripL (l : List Char) : List Char :=
  dropTrailWs (l.dropWhile pyIsSpace)

/-- Helper for `collapseWsL`: the flag records whether the previous input
character belonged to a whitespace run whose single `' '` replacement was
already emitted. -/
def collapseGo : Bool → List Char → List Char
  | _, [] => []
  | prevWs, c :: t =>
    if pyIsSpace c then
      if prevWs then collapseGo true t else ' ' :: collapseGo true t
    else c :: collapseGo false t

/-- Python `re.sub(r'\s+', ' ', s)`: every maximal whitespace run becomes a
single space. -/
def collapseWsL (l : List Char) : List Char := collapseGo false l

/-- Python `re.sub(r'\s+', ' ', s).strip()`, used by
`extract_text_from_pdf` per page and by `_clean_question`. -/
def normStripL (l : List Char) : List Char := pyStripL (collapseWsL l)

/-- Index of the first occurrence of `pat` as a contiguous substring. -/
def findSubstrIdx (pat : List Char) : List Char → Option Nat
  | [] => if pat.isEmpty then some 0 else none
  | c :: t =>
    if pat.isPrefixOf (c :: t) then some 0
    else (findSubstrIdx pat t).map (· + 1)

/-- Python `pat in s` substring containment. -/
def containsSub (pat l : List Char) : Bool := (findSubstrIdx pat l).isSome

/-- Fueled worker for `removeAll`. -/
def removeAllGo (pat : List Char) : Nat → List Char → List Char
  | _, [] => []
  | 0, l => l
  | Nat.succ fuel, c :: t =>
    if pat.isPrefixOf (c :: t) then removeAllGo pat fuel ((c :: t).drop pat.length)
    else c :: removeAllGo pat fuel t

/-- Python `s.replace(pat, '')` for a non-empty literal `pat`: left-to-right
non-overlapping removal of every occurrence.  The fuel `l.length` is enough
because every step consumes at least one character. -/
def removeAll (pat l : List Char) : List Char :=
  if pat.isEmpty then l else removeAllGo pat l.length l

/-- A single space joins the pieces, Python `' '.join(pieces)`. -/
def joinSp : List (List Char) → List Char
  | [] => []
  | [x] => x
  | x :: y :: t => x ++ ' ' :: joinSp (y :: t)

/-- Python `text.split('\n')` (keeps empty pieces, never returns `[]`). -/
def splitLinesL : List Char → List (List Char)
  | [] => [[]]
  | '\n' :: t => [] :: splitLinesL t
  | c :: t =>
    match splitLinesL t with
    | [] => [[c]]
    | l :: ls => (c :: l) :: ls

/-! ## Data model

`Section` and `Template` mirror the `template` dict built by the Flask
route (`'sections'` entries with `'name'`, `'type'`, `'questions'`,
`'marks_per_question'`); the remaining template keys (institution, course,
…) are not read by the generator methods modelled here.  `Question`
mirrors the dicts appended by `_format_response`; `options` is `none`
exactly when the Python dict lacks the `'options'` key (non-MCQ sections).
`GeneratedDocument` mirrors `{'sections': {...}}` with the insertion-ordered
Python dict modelled as an association list with in-place overwrite. -/

structure Section where
  name : String
  type : String
  questions : Int
  marks_per_question : Int
deriving DecidableEq, Repr

structure Template where
  sections : List Section
deriving DecidableEq, Repr

structure Question where
  text : String
  difficulty : String
  marks : Int
  options : Option (List String)
deriving DecidableEq, Repr

structure GeneratedDocument where
  sections : List (String × List Question)
deriving DecidableEq, Repr

/-- Python dict assignment `d[k] = v`: overwrite in place if the key is
present, else append at the end. -/
def dictInsert (k : String) (v : List Question) :
    List (String × List Question) → List (String × List Question)
  | [] => [(k, v)]
  | (k2, v2) :: t => if k2 == k then (k, v) :: t else (k2, v2) :: dictInsert k v t

/-- Python dict lookup `d.get(k)`. -/
def dictGet (k : String) : List (String × List Question) → Option (List Question)
  | [] => none
  | (k2, v2) :: t => if k2 == k then some v2 else dictGet k t

/-! ## Text Extractor (`extract_text_from_pdf`)

A PDF is modelled as its list of per-page extracted texts; the `fitz`
page iteration and the I/O failure branch (which returns `""`) are the
external boundary. -/

/-- Model of `extract_text_from_pdf` on the per-page texts of one document:
each page is whitespace-collapsed and stripped, then the pages are joined
by single spaces. -/
def extract_text_from_pdf (pages : List (List Char)) : List Char :=
  joinSp (pages.map normStripL)

/-! ## Question Harvester (`extract_questions_from_past_papers`)

The boundary regex
`(?:Q\s*\d+\.?|Question\s*\d*:?|Part\s*[A-Z]\s*\(.*?\):?)(.*?)(?=(?:Q\s*\d+|Question\s*\d+|Part\s*[A-Z]\s*\()|$)`
with `re.DOTALL | re.IGNORECASE` is embedded operationally: a greedy
prefix alternation, a lazy capture, and a zero-width lookahead
alternation ending at `$` (end of text, or just before one trailing
newline). -/

/-- Case-insensitive literal match (`pat` given in lowercase); returns the
rest of the input on success. -/
def ciLit : List Char → List Char → Option (List Char)
  | [], l => some l
  | _ :: _, [] => none
  | p :: ps, c :: cs => if c.toLower == p then ciLit ps cs else none

/-- Prefix branch `Q\s*\d+\.?` (case-insensitive). -/
def matchQnum : List Char → Option (List Char)
  | [] => none
  | c :: rest =>
    if c.toLower == 'q' then
      let r1 := rest.dropWhile pyIsSpace
      let ds := r1.takeWhile Char.isDigit
      if ds.isEmpty then none
      else
        match r1.drop ds.length with
        | '.' :: r2 => some r2
        | r2 => some r2
    else none

/-- Prefix branch `Question\s*\d*:?` (case-insensitive). -/
def matchQuestionWord (l : List Char) : Option (List Char) :=
  match ciLit "question".data l with
  | none => none
  | some r =>
    let r2 := (r.dropWhile pyIsSpace).dropWhile Char.isDigit
    match r2 with
    | ':' :: r3 => some r3
    | _ => some r2

/-- Prefix branch `Part\s*[A-Z]\s*\(.*?\):?` (case-insensitive, `.`
matches newlines because of `re.DOTALL`). -/
def matchPart (l : List Char) : Option (List Char) :=
  match ciLit "part".data l with
  | none => none
  | some r =>
    match r.dropWhile pyIsSpace with
    | [] => none
    | c :: r2 =>
      if c.isAlpha then
        match r2.dropWhile pyIsSpace with
        | '(' :: r4 =>
          let content := r4.takeWhile (fun x => x != ')')
          match r4.drop content.length with
          | ')' :: r5 =>
            (match r5 with
             | ':' :: r6 => some r6
             | _ => some r5)
          | _ => none
        | _ => none
      else none

/-- The harvester's question-marker prefix, alternatives in source order. -/
def harvMarker (l : List Char) : Option (List Char) :=
  match matchQnum l with
  | some r => some r
  | none =>
    match matchQuestionWord l with
    | some r => some r
    | none => matchPart l

/-- Lookahead branch `Q\s*\d+` (case-insensitive). -/
def lookQnum : List Char → Bool
  | [] => false
  | c :: rest =>
    c.toLower == 'q' && !(((rest.dropWhile pyIsSpace).takeWhile Char.isDigit).isEmpty)

/-- Lookahead branch `Question\s*\d+` (case-insensitive). -/
def lookQuestionWord (l : List Char) : Bool :=
  match ciLit "question".data l with
  | none => false
  | some r => !(((r.dropWhile pyIsSpace).takeWhile Char.isDigit).isEmpty)

/-- Lookahead branch `Part\s*[A-Z]\s*\(` (case-insensitive). -/
def lookPart (l : List Char) : Bool :=
  match ciLit "part".data l with
  | none => false
  | some r =>
    match r.dropWhile pyIsSpace with
    | [] => false
    | c :: r2 =>
      c.isAlpha &&
        (match r2.dropWhile pyIsSpace with
         | '(' :: _ => true
         | _ => false)

/-- The harvester's next-marker lookahead group. -/
def harvLook (l : List Char) : Bool := lookQnum l || lookQuestionWord l || lookPart l

/-- Lazy capture `(.*?)` up to the lookahead `(?=(?:…)|$)`: extend one
character at a time until the next-marker group matches or `$` does
(end of input, or just before a single trailing newline). -/
def harvCapture (acc : List Char) : List Char → List Char × List Char
  | [] => (acc, [])
  | c :: tl =>
    if harvLook (c :: tl) then (acc, c :: tl)
    else if c == '\n' && tl.isEmpty then (acc, c :: tl)
    else harvCapture (acc ++ [c]) tl

/-- Fueled `re.findall` scan for the harvester pattern: try a match at each
position, emit its capture group, and continue after the match.  Every
step consumes at least one character, so fuel `l.length` is enough. -/
def harvGo : Nat → List Char → List (List Char)
  | 0, _ => []
  | _, [] => []
  | Nat.succ f, c :: tl =>
    match harvMarker (c :: tl) with
    | some rest =>
      let gc := harvCapture [] rest
      gc.1 :: harvGo f gc.2
    | none => harvGo f tl

/-- Python `re.findall` of the harvester boundary pattern. -/
def harvFindall (l : List Char) : List (List Char) := harvGo l.length l

/-- The span of a bracket group `\[.*?\]` opened just before `t` (no
`re.DOTALL`, so the lazy body cannot cross a newline): the rest after the
first `]`, or `none` when the group never closes. -/
def bracketSpan (t : List Char) : Option (List Char) :=
  let content := t.takeWhile (fun c => c != ']' && c != '\n')
  match t.drop content.length with
  | ']' :: r => some r
  | _ => none

/-- Fueled worker for `removeBrackets`. -/
def removeBracketsGo : Nat → List Char → List Char
  | _, [] => []
  | 0, l => l
  | Nat.succ f, c :: tl =>
    if c == '[' then
      match bracketSpan tl with
      | some r => removeBracketsGo f r
      | none => c :: removeBracketsGo f tl
    else c :: removeBracketsGo f tl

/-- Python `re.sub(r'\[.*?\]', '', s)`. -/
def removeBrackets (l : List Char) : List Char := removeBracketsGo l.length l

/-- Model of `_clean_question`: drop bracketed fragments, collapse whitespace and
strip, then truncate to 500 characters. -/
def clean_question (q : List Char) : List Char :=
  (normStripL (removeBrackets q)).take 500

/-- Model of `extract_questions_from_past_papers` on the page texts of each PDF:
harvest boundary-delimited captures from each document's extracted text,
keep those whose raw text is not pure whitespace, and clean them. -/
def extract_questions_from_past_papers (pdfs : List (List (List Char))) : List (List Char) :=
  pdfs.flatMap (fun pages =>
    ((harvFindall (extract_text_from_pdf pages)).filter
        (fun q => !(pyStripL q).isEmpty)).map clean_question)

/-! ## Output Parser (`_format_response`)

Line-driven single pass.  Each line is stripped, tested against the
section-header pattern `re.match(r'\*\*(.*?)\*\*', line)` (a *prefix*
match with a lazy group: the line starts with `**` and the group runs to
the next `**`), and otherwise processed as a question item or a
continuation.  The two places where the Python could raise — `line[0]` on
an empty string and `current_questions[-1]` on an empty accumulator —
are modelled with `Option`; both are protected by guards in the source. -/

/-- Python `re.match(r'\*\*(.*?)\*\*', line)`: anchored at the start only; the
lazy group is the text up to the first later `**`. -/
def headerMatchL (l : List Char) : Option (List Char) :=
  if "**".data.isPrefixOf l then
    (findSubstrIdx "**".data (l.drop 2)).map (fun i => (l.drop 2).take i)
  else none

/-- Python `line.startswith('- ') or line.startswith('a)') or line.startswith('b)')
or line[0].isdigit()`; `none` when the line is empty (where `line[0]`
would raise `IndexError`). -/
def isItemLine (line : List Char) : Option Bool :=
  match line with
  | [] => none
  | c :: _ =>
    some ("- ".data.isPrefixOf line || "a)".data.isPrefixOf line ||
      "b)".data.isPrefixOf line || c.isDigit)

/-- Difficulty-tag extraction (source lines 223–232): first of the literal
substrings `[Easy]`, `[Medium]`, `[Hard]` wins; all its occurrences are
removed and the line re-stripped. -/
def extractDifficulty (line : List Char) : Option String × List Char :=
  if containsSub "[Easy]".data line then
    (some "easy", pyStripL (removeAll "[Easy]".data line))
  else if containsSub "[Medium]".data line then
    (some "medium", pyStripL (removeAll "[Medium]".data line))
  else if containsSub "[Hard]".data line then
    (some "hard", pyStripL (removeAll "[Hard]".data line))
  else (none, line)

/-- Match of `\[(\d+)\s*Marks\]` anchored at the head of the input:
returns the integer group and the rest after the match.  (`int()` of a
`\d+` group cannot raise, so the source's `except` branch is dead.) -/
def matchMarksAt : List Char → Option (Nat × List Char)
  | '[' :: rest =>
    let ds := rest.takeWhile Char.isDigit
    if ds.isEmpty then none
    else
      let r2 := (rest.dropWhile Char.isDigit).dropWhile pyIsSpace
      if "Marks]".data.isPrefixOf r2 then
        some (ds.foldl (fun n c => 10 * n + (c.toNat - 48)) 0, r2.drop 6)
      else none
  | _ => none

/-- Python `re.search(r'\[(\d+)\s*Marks\]', line)`: leftmost match's group. -/
def searchMarks : List Char → Option Nat
  | [] => none
  | c :: t =>
    match matchMarksAt (c :: t) with
    | some (v, _) => some v
    | none => searchMarks t

/-- Fueled worker for `removeMarksAll`. -/
def removeMarksGo : Nat → List Char → List Char
  | _, [] => []
  | 0, l => l
  | Nat.succ f, c :: t =>
    match matchMarksAt (c :: t) with
    | some (_, rest) => removeMarksGo f rest
    | none => c :: removeMarksGo f t

/-- Python `re.sub(r'\[\d+\s*Marks\]', '', line)`. -/
def removeMarksAll (l : List Char) : List Char := removeMarksGo l.length l

/-- Marks-tag extraction (source lines 234–241): on a match the line has
all marks tags removed and is re-stripped. -/
def extractMarks (line : List Char) : Option Int × List Char :=
  match searchMarks line with
  | some v => (some (Int.ofNat v), pyStripL (removeMarksAll line))
  | none => (none, line)

/-- Python `current_section in template['sections']` (source line 243):
membership of a *string* in the list of section *dicts*.  `str == dict`
is always `False` in Python, so the test never succeeds. -/
def strInSections (_curName : String) (ss : List Section) : Bool :=
  ss.any (fun _ => false)

/-- The marks fallback of source lines 242–247 (`# If no marks specified,
use the template's default marks`), guarded by `strInSections`. -/
def marksFallback (ss : List Section) (curName : String) (m : Option Int) : Option Int :=
  if m.isNone && strInSections curName ss then
    match ss.find? (fun s => s.name == curName) with
    | some s => some s.marks_per_question
    | none => m
  else m

/-- Python `section_types.get(current_section, '')` where `section_types` is the
dict comprehension over `template['sections']` (later duplicates win). -/
def sectionTypesGet (tmpl : Template) (n : String) : String :=
  match (tmpl.sections.filter (fun s => s.name == n)).getLast? with
  | some s => s.type
  | none => ""

/-- Python `re.sub(r'^\d+\.\s*', '', line)`: strip a leading digit run, a dot and
following whitespace. -/
def stripLeadingEnum (l : List Char) : List Char :=
  let ds := l.takeWhile Char.isDigit
  if ds.isEmpty then l
  else
    match l.drop ds.length with
    | '.' :: r => r.dropWhile pyIsSpace
    | _ => l

/-- Python `re.sub(r'^\[.*?\]\s*', '', line)`: strip one leading bracket group
(the lazy body cannot cross a newline) and following whitespace. -/
def stripLeadingBracket (l : List Char) : List Char :=
  match l with
  | '[' :: r =>
    let content := r.takeWhile (fun c => c != ']' && c != '\n')
    (match r.drop content.length with
     | ']' :: rest => rest.dropWhile pyIsSpace
     | _ => l)
  | _ => l

/-- The two leading cleanups of source lines 251–252, in order. -/
def cleanLinePrefix (l : List Char) : List Char :=
  stripLeadingBracket (stripLeadingEnum l)

/-! ### MCQ option extraction

`re.split(r'(?=a\))', clean_line, maxsplit=1)` splits before the first
literal `a)`; the options regex
`([a-z]\))\s*([^a-z\)](?:.*?))(?:\s*(?=[a-z]\))|$)` is embedded with its
backtracking semantics: after the letter marker, greedy `\s*` backtracks
at most one whitespace character so that `[^a-z\)]` can match; the lazy
body extends until `\s*` followed by a lookahead at the next `x)` marker
succeeds, or until `$`. -/

def isLowerAZ (c : Char) : Bool := 'a' ≤ c && c ≤ 'z'

/-- The character class `[^a-z\)]`. -/
def optClassC (c : Char) : Bool := !(isLowerAZ c || c == ')')

/-- Length of the leading whitespace run. -/
def wsRun (l : List Char) : Nat := (l.takeWhile pyIsSpace).length

/-- Lookahead `[a-z]\)` at the head of the input. -/
def optStart : List Char → Bool
  | a :: ')' :: _ => isLowerAZ a
  | _ => false

/-- Greedy `\s*` then the class character: the class accepts whitespace,
so on failure after the full whitespace run the regex backtracks exactly
one whitespace character. -/
def pickCBack (rest : List Char) (w : Nat) : Option (Char × List Char) :=
  if w == 0 then none
  else
    match rest.drop (w - 1) with
    | cw :: tl2 => some (cw, tl2)
    | [] => none

/-- Choose the `[^a-z\)]` character after `x)` and greedy `\s*`. -/
def pickC (rest : List Char) : Option (Char × List Char) :=
  match rest.drop (wsRun rest) with
  | c :: tl => if optClassC c then some (c, tl) else pickCBack rest (wsRun rest)
  | [] => pickCBack rest (wsRun rest)

/-- Lazy body `(?:.*?)` of the options regex, ending at
`\s*(?=[a-z]\))` or `$`: returns the full second capture group and the
rest of the input after the match. -/
def bodySearch (acc : List Char) : List Char → List Char × List Char
  | [] => (acc, [])
  | c :: tl =>
    if optStart ((c :: tl).drop (wsRun (c :: tl))) then (acc, (c :: tl).drop (wsRun (c :: tl)))
    else if c == '\n' && tl.isEmpty then (acc, c :: tl)
    else bodySearch (acc ++ [c]) tl

/-- One match attempt of the options regex at the head of the input:
returns the second capture group and the rest after the match. -/
def matchOptAt : List Char → Option (List Char × List Char)
  | a :: ')' :: rest =>
    if isLowerAZ a then
      match pickC rest with
      | some (c, tl) => some (bodySearch [c] tl)
      | none => none
    else none
  | _ => none

/-- Fueled `re.findall` scan for the options regex. -/
def findOptsGo : Nat → List Char → List (List Char)
  | 0, _ => []
  | _, [] => []
  | Nat.succ f, c :: tl =>
    match matchOptAt (c :: tl) with
    | some (g, rem) => g :: findOptsGo f rem
    | none => findOptsGo f tl

/-- Python `re.findall(r'([a-z]\))\s*([^a-z\)](?:.*?))(?:\s*(?=[a-z]\))|$)', blob)`,
second groups only. -/
def findOptions (l : List Char) : List (List Char) := findOptsGo l.length l

/-- Python `re.split(r'(?=a\))', clean_line, maxsplit=1)`: the stem and, when the
marker occurs, the options blob from the first `a)` on. -/
def splitAtA (l : List Char) : List Char × Option (List Char) :=
  match findSubstrIdx "a)".data l with
  | some i => (l.take i, some (l.drop i))
  | none => (l, none)

/-- Stem/options split applied to the cleaned line (source line 254). -/
def mcqParts (l2 : List Char) : List Char × Option (List Char) :=
  splitAtA (cleanLinePrefix l2)

/-- Source lines 255–259: no `a)` marker means no options; otherwise each
match's group is stripped, newline-replaced and kept when non-empty. -/
def extractOptions : Option (List Char) → List String
  | none => []
  | some blob =>
    (findOptions blob).filterMap (fun g =>
      let s := pyStripL g
      if s.isEmpty then none
      else some ((s.map (fun c => if c == '\n' then ' ' else c)).asString))

/-- The tag-stripped line handed to the cleanup steps (the line after
difficulty- and marks-tag removal). -/
def afterTags (line : List Char) : List Char :=
  (extractMarks (extractDifficulty line).2).2

/-- Build the question dict for one item line (source lines 222–272),
given the section list (for the dead marks fallback) and the owning
section's type. -/
def mkQuestionCore (ss : List Section) (qType curName : String) (line : List Char) : Question :=
  let d := (extractDifficulty line).1
  let m := marksFallback ss curName (extractMarks (extractDifficulty line).2).1
  let l2 := afterTags line
  if qType == "multiple_choice" then
    { text := (pyStripL (mcqParts l2).1).asString
      difficulty := d.getD "medium"
      marks := m.getD 0
      options := some (extractOptions (mcqParts l2).2) }
  else
    { text := (pyStripL (cleanLinePrefix l2)).asString
      difficulty := d.getD "medium"
      marks := m.getD 0
      options := none }

/-- Question construction as `_format_response` performs it, looking the
section type up in the template. -/
def mkQuestion (tmpl : Template) (curName : String) (line : List Char) : Question :=
  mkQuestionCore tmpl.sections (sectionTypesGet tmpl curName) curName line

/-- Python `current_questions[-1]['text'] += " " + line` (source line 275);
`none` on an empty accumulator, where Python would raise. -/
def appendLast (qs : List Question) (line : List Char) : Option (List Question) :=
  match qs.getLast? with
  | none => none
  | some q => some (qs.dropLast ++ [{ q with text := q.text ++ " " ++ line.asString }])

/-- Parser state: committed sections, the open section name
(`current_section`, `none` before the first header), and the question
accumulator. -/
structure PState where
  secs : List (String × List Question)
  cur : Option String
  qs : List Question
deriving DecidableEq, Repr

/-- Commit of the open section (`if current_section: sections[...] = ...`):
only a *truthy* name (non-`None`, non-empty) is committed. -/
def commitCur (st : PState) : List (String × List Question) :=
  match st.cur with
  | some n => if n == "" then st.secs else dictInsert n st.qs st.secs
  | none => st.secs

/-- Question-accumulator evolution for one non-header line
(`if line and current_section:` and the item/continuation branches). -/
def qsStepO (tmpl : Template) (cur : Option String) (qs : List Question)
    (line : List Char) : Option (List Question) :=
  match cur with
  | none => some qs
  | some curName =>
    if line.isEmpty || curName == "" then some qs
    else
      match isItemLine line with
      | none => none
      | some true => some (qs ++ [mkQuestion tmpl curName line])
      | some false => if qs.isEmpty then some qs else appendLast qs line

/-- One iteration of the parser loop on one raw line (the line is
stripped once at the top, as in the source). -/
def stepLine (tmpl : Template) (st : PState) (rawLine : List Char) : Option PState :=
  match headerMatchL (pyStripL rawLine) with
  | some nm => some ⟨commitCur st, some nm.asString, []⟩
  | none =>
    (qsStepO tmpl st.cur st.qs (pyStripL rawLine)).map (fun q2 => ⟨st.secs, st.cur, q2⟩)

/-- The parser fold over the pre-split lines, with the terminal commit. -/
def parseLines (tmpl : Template) (lines : List (List Char)) : Option GeneratedDocument :=
  (lines.foldlM (stepLine tmpl) ⟨[], none, []⟩).map (fun st => ⟨commitCur st⟩)

/-- Model of `_format_response(text, template)`. -/
def format_response (tmpl : Template) (text : String) : Option GeneratedDocument :=
  parseLines tmpl (splitLinesL text.data)

/-! ## Prompt Composer and `generate_questions`

The f-strings of `generate_questions` (source lines 133–189) are
reproduced literally.  The external `ollama.chat` call is the black-box
boundary: its outcome is a parameter of type `Except String String`
(exception message, or the response's `message.content`). -/

structure DifficultyQuota where
  easy : Int
  medium : Int
  hard : Int
deriving DecidableEq, Repr

/-- Python `str.title()` (ASCII): the first letter of each alphabetic run
is uppercased, the rest lowercased. -/
def titleGo : Bool → List Char → List Char
  | _, [] => []
  | prevAlpha, c :: t =>
    if c.isAlpha then
      (if prevAlpha then c.toLower else c.toUpper) :: titleGo true t
    else c :: titleGo false t

/-- Python `section['type'].replace('_', ' ').title()`. -/
def humanType (t : String) : String :=
  (titleGo false (t.data.map (fun c => if c == '_' then ' ' else c))).asString

/-- Python `'\n'.join(pieces)`. -/
def joinNl : List String → String
  | [] => ""
  | [x] => x
  | x :: y :: t => x ++ "\n" ++ joinNl (y :: t)

/-- The per-section block of the system prompt (source lines 157–162). -/
def sectionPrompt (s : Section) : String :=
  "\n**" ++ s.name ++ " (" ++ humanType s.type ++ "):**\n- Number of questions: " ++
    toString s.questions ++ "\n- Marks per question: " ++ toString s.marks_per_question ++
    "\n- Total marks: " ++ toString (s.questions * s.marks_per_question) ++ "\n"

/-- The `difficulty_prompt` (source lines 133–138). -/
def difficultyPrompt (d : DifficultyQuota) : String :=
  "\n**Difficulty Distribution:**\n- Easy Questions: " ++ toString d.easy ++
    "%\n- Medium Questions: " ++ toString d.medium ++
    "%\n- Hard Questions: " ++ toString d.hard ++ "%\n"

/-- The `past_questions_section` (source lines 140–152): empty when the past
questions list is falsy, else built from the first 15 entries. -/
def pastQuestionsSection (pastQs : List String) : String :=
  if pastQs.isEmpty then ""
  else
    "\n**Avoidance Requirements:**\nDo not create questions similar to these past questions:\n" ++
      joinNl ((pastQs.take 15).map (fun q => "- " ++ q)) ++
      "\n\n**Additional Guidelines:**\n1. Ensure new questions are distinct in both content and phrasing\n2. Cover similar concepts but with different approaches\n3. Vary question types and formats\n"

/-- The `system_prompt` (source lines 165–187). -/
def systemPrompt (tmpl : Template) (d : DifficultyQuota) (pastQs : List String) : String :=
  "\nYou are an AI specialized in generating academic question papers.\nFollow these guidelines strictly:\n\n**Paper Structure:**\n" ++
    joinNl (tmpl.sections.map sectionPrompt) ++
    "\n\n**Formatting Rules:**\n1. Start each section with the section name\n2. List questions with bullet points (-)\n3. For sub-questions use a) and b)\n4. Explicitly include marks allocation in brackets [X Marks]\n5. Keep questions concise but unambiguous\n6. Label each question with its difficulty level [Easy/Medium/Hard]\n\n**Quality Requirements:**\n1. Questions must be unambiguous and academically rigorous\n2. Cover all major topics from the source material\n3. Include appropriate technical terms\n4. Follow the specified difficulty distribution\n" ++
    difficultyPrompt d ++ "\n" ++ pastQuestionsSection pastQs ++ "\n"

/-- The `user_prompt` (source line 189): the source text truncated to its
first 4000 characters. -/
def userPrompt (combined : String) : String :=
  "Generate a comprehensive question paper from: " ++ (combined.data.take 4000).asString

/-- Python `generate_questions(combined_text, template, difficulty_distribution,
past_questions)` with the external call's outcome supplied as `call`.
`Except.error` models the `{"error": ...}` dicts; the prompt assembly
(`systemPrompt`/`userPrompt`) does not influence which branch is taken.
The `none` branch of `format_response` (unreachable: the parser is total)
corresponds to an exception inside the `try` block, caught by the
source's `except`. -/
def generate_questions (combined : String) (tmpl : Template) (_dq : DifficultyQuota)
    (_pastQs : List String) (call : Except String String) :
    Except String GeneratedDocument :=
  if combined = "" then .error "No meaningful content found in the PDFs"
  else
    match call with
    | .error e => .error ("Error generating questions: " ++ e)
    | .ok content =>
      match format_response tmpl content with
      | some d => .ok d
      | none => .error "Error generating questions: formatting failed"

/-! ## Auxiliary definitions for the verification -/

/-- The parser step as a pure function; `stepLine` never returns `none`
(proved below), so this is the same function with the `Option` discharged. -/
def stepPure (tmpl : Template) (st : PState) (rawLine : List Char) : PState :=
  (stepLine tmpl st rawLine).getD st

/-- No two adjacent characters are both whitespace. -/
def noDoubleWs : List Char → Bool
  | c :: d :: t => !(pyIsSpace c && pyIsSpace d) && noDoubleWs (d :: t)
  | _ => true

/-- The first character, if any, is not whitespace. -/
def noLeadWs : List Char → Bool
  | [] => true
  | c :: _ => !pyIsSpace c

/-- The last character, if any, is not whitespace. -/
def noTrailWs (l : List Char) : Bool := noLeadWs l.reverse

/-- Modelled from the spec's words (claim C4): a line that is of the form
`**<text>**` *in isolation*, i.e. the whole line is the bold marker pair
around the section name. -/
def specIsolatedHeader (l : List Char) : Bool :=
  "**".data.isPrefixOf l && "**".data.isSuffixOf l && decide (4 ≤ l.length)

/-- A template with no sections, for concrete instantiations. -/
def T0 : Template := ⟨[]⟩

/-- A template with one short-answer section worth 5 marks per question. -/
def T5 : Template := ⟨[⟨"Section A", "short_answer", 1, 5⟩]⟩

/-- A template with one multiple-choice section. -/
def TM : Template := ⟨[⟨"Quiz", "multiple_choice", 1, 1⟩]⟩

/-! ## Lemmas: totality of the parser and its pure characterization -/

lemma strInSections_false (n : String) (ss : List Section) :
    strInSections n ss = false := by
  induction ss with
  | nil => rfl
  | cons s t ih => simp [strInSections, List.any_cons]

lemma marksFallback_eq (ss : List Section) (n : String) (m : Option Int) :
    marksFallback ss n m = m := by
  simp [marksFallback, strInSections_false]

/-- The marks fallback to the template's `marks_per_question` is dead code:
the membership test compares a string with section dicts and never
succeeds, so `mkQuestionCore` ignores the section list entirely. -/
lemma mkQuestionCore_sections_irrel (ss : List Section) (qType curName : String)
    (line : List Char) :
    mkQuestionCore ss qType curName line = mkQuestionCore [] qType curName line := by
  simp [mkQuestionCore, marksFallback_eq]

lemma isItemLine_isSome (line : List Char) (h : line ≠ []) :
    (isItemLine line).isSome := by
  cases line with
  | nil => exact absurd rfl h
  | cons c t => simp [isItemLine]

lemma appendLast_isSome (qs : List Question) (line : List Char) (h : qs ≠ []) :
    (appendLast qs line).isSome := by
  unfold appendLast
  cases hl : qs.getLast? with
  | none => exact absurd (List.getLast?_eq_none_iff.mp hl) h
  | some q => simp

lemma qsStepO_isSome (tmpl : Template) (cur : Option String) (qs : List Question)
    (line : List Char) : (qsStepO tmpl cur qs line).isSome := by
  unfold qsStepO
  cases cur with
  | none => simp
  | some curName =>
    by_cases hg : (line.isEmpty || curName == "") = true
    · simp [hg]
    · have hne : line ≠ [] := by
        intro he
        subst he
        simp at hg
      simp only [hg]
      cases hit : isItemLine line with
      | none =>
        have := isItemLine_isSome line hne
        rw [hit] at this
        simp at this
      | some b =>
        cases b with
        | true => simp
        | false =>
          by_cases hq : qs.isEmpty = true
          · simp [hq]
          · have : qs ≠ [] := by
              intro he; subst he; simp at hq
            simp only [hq]
            simpa using appendLast_isSome qs line this

lemma stepLine_isSome (tmpl : Template) (st : PState) (l : List Char) :
    (stepLine tmpl st l).isSome := by
  cases h : headerMatchL (pyStripL l) with
  | some nm => simp [stepLine, h]
  | none =>
    simp only [stepLine, h]
    cases hq : qsStepO tmpl st.cur st.qs (pyStripL l) with
    | none =>
      have hs := qsStepO_isSome tmpl st.cur st.qs (pyStripL l)
      rw [hq] at hs
      simp at hs
    | some q2 => simp

lemma stepLine_eq_pure (tmpl : Template) (st : PState) (l : List Char) :
    stepLine tmpl st l = some (stepPure tmpl st l) := by
  have h := stepLine_isSome tmpl st l
  cases heq : stepLine tmpl st l with
  | none => rw [heq] at h; simp at h
  | some s2 => simp [stepPure, heq]

lemma foldlM_stepLine_eq (tmpl : Template) (lines : List (List Char)) (st : PState) :
    lines.foldlM (stepLine tmpl) st = some (lines.foldl (stepPure tmpl) st) := by
  induction lines generalizing st with
  | nil => rfl
  | cons l ls ih =>
    rw [List.foldlM_cons, stepLine_eq_pure]
    simpa using ih (stepPure tmpl st l)

/-- The parser never fails: it is the pure fold of `stepPure` followed by
the terminal commit. -/
lemma parseLines_eq (tmpl : Template) (lines : List (List Char)) :
    parseLines tmpl lines =
      some ⟨commitCur (lines.foldl (stepPure tmpl) ⟨[], none, []⟩)⟩ := by
  simp [parseLines, foldlM_stepLine_eq]

/-- A line whose stripped form matches the header pattern commits the open
section and restarts the accumulator. -/
lemma stepPure_header (tmpl : Template) (st : PState) (l : List Char) (nm : List Char)
    (h : headerMatchL (pyStripL l) = some nm) :
    stepPure tmpl st l = ⟨commitCur st, some nm.asString, []⟩ := by
  have hst : stepLine tmpl st l = some ⟨commitCur st, some nm.asString, []⟩ := by
    simp [stepLine, h]
  have h2 := stepLine_eq_pure tmpl st l
  rw [hst] at h2
  exact (Option.some_inj.mp h2).symm

/-- A non-header line leaves the committed sections and the open section
name untouched; only the question accumulator evolves, and it evolves as a
function of the template, the open name and the accumulator alone. -/
lemma stepPure_nonheader (tmpl : Template) (st : PState) (l : List Char)
    (h : headerMatchL (pyStripL l) = none) :
    stepPure tmpl st l =
      ⟨st.secs, st.cur, (qsStepO tmpl st.cur st.qs (pyStripL l)).getD st.qs⟩ := by
  have hs := qsStepO_isSome tmpl st.cur st.qs (pyStripL l)
  cases hq : qsStepO tmpl st.cur st.qs (pyStripL l) with
  | none => rw [hq] at hs; simp at hs
  | some q2 =>
    have hst : stepLine tmpl st l = some ⟨st.secs, st.cur, q2⟩ := by
      simp [stepLine, h, hq]
    have h2 := stepLine_eq_pure tmpl st l
    rw [hst] at h2
    simpa using (Option.some_inj.mp h2).symm

/-- Before any header has been seen (`current_section = None`), non-header
lines leave the parser state completely unchanged. -/
lemma fold_no_header (tmpl : Template) (lines : List (List Char))
    (secs : List (String × List Question)) (qs : List Question)
    (hno : ∀ l ∈ lines, headerMatchL (pyStripL l) = none) :
    List.foldl (stepPure tmpl) ⟨secs, none, qs⟩ lines = ⟨secs, none, qs⟩ := by
  induction lines with
  | nil => rfl
  | cons l ls ih =>
    rw [List.foldl_cons, stepPure_nonheader tmpl ⟨secs, none, qs⟩ l (hno l (List.mem_cons_self l ls))]
    exact ih (fun x hx => hno x (List.mem_cons_of_mem _ hx))

/-- Python `format_response` always returns a document. -/
lemma format_response_isSome (tmpl : Template) (text : String) :
    (format_response tmpl text).isSome := by
  unfold format_response
  rw [parseLines_eq]
  rfl

/-! ## Claim theorems -/

/-- Claim C3 (confirmed): for every template and every input string the
parser terminates without raising and returns a `GeneratedDocument` (the
embedding marks every raise site with `Option`, and the result is always
`some`); when no line of the input matches the section-header pattern the
returned document has zero sections. -/
theorem c3_claim (tmpl : Template) (text : String) :
    (format_response tmpl text).isSome = true ∧
      ((∀ l ∈ splitLinesL text.data, headerMatchL (pyStripL l) = none) →
        format_response tmpl text = some ⟨[]⟩) := by
  refine ⟨format_response_isSome tmpl text, fun hno => ?_⟩
  unfold format_response
  rw [parseLines_eq, fold_no_header tmpl _ [] [] hno]
  rfl

/-- Witness for C3 at a concrete garbage input with no section headers. -/
theorem c3_witness :
    format_response T0 "just some #@!% garbage text, 12. not a header" = some ⟨[]⟩ :=
  (c3_claim T0 "just some #@!% garbage text, 12. not a header").2 (by decide)

/-- Claim C2 (code bug): with the template section "Section A" configured
with `marks_per_question = 5` and an item line carrying no marks tag, the
parser produces `marks = 0`, not 5: the fallback at source line 243 tests
`current_section in template['sections']`, a string-versus-dict
membership that is always `False`, so the `marks_per_question` fallback
announced by the source's own comment never executes and `marks or 0`
yields 0. -/
theorem c2_claim :
    format_response T5 "**Section A**\n- What is 2+2?" =
      some ⟨[("Section A", [⟨"- What is 2+2?", "medium", 0, none⟩])]⟩ := by
  rfl

/-- Counterexample to C1 as stated: parsing
`"**Section A**\n- [Easy][2 Marks] What is 2+2?"` with the matching
short-answer template does *not* yield a question whose text is
`"What is 2+2?"` — the leading `"- "` bullet is never stripped (the
cleanups only remove a leading digits-and-dot enumeration and a leading
bracket tag), and removing `[2 Marks]` leaves a doubled space. -/
theorem c1_counterexample :
    format_response T5 "**Section A**\n- [Easy][2 Marks] What is 2+2?" ≠
      some ⟨[("Section A", [⟨"What is 2+2?", "easy", 2, none⟩])]⟩ := by
  decide

/-- Claim C1 (corrected): for every template whose section-type lookup
maps "Section A" to `short_answer`, parsing
`"**Section A**\n- [Easy][2 Marks] What is 2+2?"` yields exactly one
section "Section A" with exactly one question of difficulty `easy` and
marks 2 — but the question text is `"-  What is 2+2?"` (bullet retained,
doubled space where the marks tag was removed), not `"What is 2+2?"`. -/
theorem c1_claim (tmpl : Template)
    (h : sectionTypesGet tmpl "Section A" = "short_answer") :
    format_response tmpl "**Section A**\n- [Easy][2 Marks] What is 2+2?" =
      some ⟨[("Section A", [⟨"-  What is 2+2?", "easy", 2, none⟩])]⟩ := by
  have hq : mkQuestion tmpl "Section A" ("- [Easy][2 Marks] What is 2+2?".data) =
      ⟨"-  What is 2+2?", "easy", 2, none⟩ := by
    unfold mkQuestion
    rw [h, mkQuestionCore_sections_irrel]
    rfl
  have p1 : stepPure tmpl ⟨[], none, []⟩ ("**Section A**".data) =
      ⟨[], some "Section A", []⟩ := rfl
  have p2 : stepPure tmpl ⟨[], some "Section A", []⟩ ("- [Easy][2 Marks] What is 2+2?".data) =
      ⟨[], some "Section A", [mkQuestion tmpl "Section A" ("- [Easy][2 Marks] What is 2+2?".data)]⟩ := rfl
  unfold format_response
  rw [parseLines_eq]
  rw [show splitLinesL ("**Section A**\n- [Easy][2 Marks] What is 2+2?").data =
      ["**Section A**".data, "- [Easy][2 Marks] What is 2+2?".data] from rfl]
  rw [List.foldl_cons, p1, List.foldl_cons, p2, List.foldl_nil, hq]
  rfl

/-- Witness for C1 at the concrete template `T5`. -/
theorem c1_witness :
    format_response T5 "**Section A**\n- [Easy][2 Marks] What is 2+2?" =
      some ⟨[("Section A", [⟨"-  What is 2+2?", "easy", 2, none⟩])]⟩ :=
  c1_claim T5 (by decide)

/-- Counterexample to C8 as stated: an *empty* generation response is not
surfaced as a hard failure — the parser turns it into an empty document
and the pipeline returns it as a success. -/
theorem c8_counterexample :
    generate_questions "x" T0 ⟨30, 40, 30⟩ [] (.ok "") = .ok ⟨[]⟩ := by
  rfl

/-- Claim C8 (corrected): the generation step returns a hard failure
(an `error` value carrying a message) when, and only when, the combined
source text is empty or the external generation call raises; an empty
(but successful) generation response is *not* a failure — it parses to a
`GeneratedDocument` with zero sections. -/
theorem c8_claim (combined : String) (tmpl : Template) (dq : DifficultyQuota)
    (pastQs : List String) (call : Except String String) :
    (∃ msg, generate_questions combined tmpl dq pastQs call = .error msg) ↔
      (combined = "" ∨ ∃ e, call = .error e) := by
  unfold generate_questions
  by_cases hc : combined = ""
  · simp [hc]
  · simp only [hc, if_false]
    cases call with
    | error e => simp
    | ok content =>
      have hs := format_response_isSome tmpl content
      cases hf : format_response tmpl content with
      | none => rw [hf] at hs; simp at hs
      | some d => simp [hf, hc]

/-- Witness for C8: an empty source text is rejected with a message. -/
theorem c8_witness :
    ∃ msg, generate_questions "" T0 ⟨30, 40, 30⟩ [] (.ok "hello") = .error msg :=
  (c8_claim "" T0 ⟨30, 40, 30⟩ [] (.ok "hello")).mpr (Or.inl rfl)

/-- Counterexample to C4 as stated: the line `"**A** trailing words"` is
*not* of the form `**<text>**` in isolation, yet the parser treats it as
a section header named "A" (`re.match` anchors at the start of the line
only), producing a document with that section. -/
theorem c4_counterexample :
    specIsolatedHeader ("**A** trailing words".data) = false ∧
      format_response T0 "**A** trailing words" = some ⟨[("A", [])]⟩ :=
  ⟨by decide, rfl⟩

/-- Claim C4 (corrected): the parser treats a line as a section header
exactly when its stripped form *starts with* `**<text>**` (a prefix
match, with `<text>` the lazy group up to the next `**`), not only when
the whole line has that form; on a match it commits the currently open
section's accumulated questions under that section's name (when the open
name is truthy) and restarts with an empty accumulator under the new
name, and on a non-match the committed sections and open name are left
unchanged. -/
theorem c4_claim (tmpl : Template) (st : PState) (l : List Char) :
    (∀ nm, headerMatchL (pyStripL l) = some nm →
      stepLine tmpl st l = some ⟨commitCur st, some nm.asString, []⟩) ∧
      (headerMatchL (pyStripL l) = none →
        ∃ qs2, stepLine tmpl st l = some ⟨st.secs, st.cur, qs2⟩) := by
  constructor
  · intro nm h
    simp [stepLine, h]
  · intro h
    refine ⟨(qsStepO tmpl st.cur st.qs (pyStripL l)).getD st.qs, ?_⟩
    rw [stepLine_eq_pure, stepPure_nonheader tmpl st l h]

/-- Witness for C4: a prefix-only header line commits the open section and
restarts under the new name. -/
theorem c4_witness :
    stepLine T0 ⟨[], some "Old", [⟨"q", "medium", 0, none⟩]⟩ ("**New** trailing".data) =
      some ⟨[("Old", [⟨"q", "medium", 0, none⟩])], some "New", []⟩ :=
  (c4_claim T0 ⟨[], some "Old", [⟨"q", "medium", 0, none⟩]⟩ ("**New** trailing".data)).1
    "New".data (by decide)

/-- Claim C5 (confirmed): under a `multiple_choice` template section,
parsing `"- What is the capital of France? a) Paris b) Lyon c) Nice d) Cannes"`
yields a question with exactly the four options
`["Paris", "Lyon", "Nice", "Cannes"]` in order; and whenever the option
extraction yields no options, the question is still committed, carrying
an empty options list. -/
theorem c5_claim :
    (format_response TM
        "**Quiz**\n- What is the capital of France? a) Paris b) Lyon c) Nice d) Cannes" =
      some ⟨[("Quiz", [⟨"- What is the capital of France?", "medium", 0,
        some ["Paris", "Lyon", "Nice", "Cannes"]⟩])]⟩) ∧
      (∀ (ss : List Section) (curName : String) (line : List Char),
        extractOptions (mcqParts (afterTags line)).2 = [] →
        (mkQuestionCore ss "multiple_choice" curName line).options = some []) ∧
      (format_response TM "**Quiz**\n- Just a stem with no markers" =
        some ⟨[("Quiz", [⟨"- Just a stem with no markers", "medium", 0, some []⟩])]⟩) := by
  refine ⟨rfl, fun ss curName line h => ?_, rfl⟩
  simp [mkQuestionCore, h]

/-- Witness for C5: a line with no `a)` marker yields an empty options
list on the committed question. -/
theorem c5_witness :
    (mkQuestionCore [] "multiple_choice" "Quiz" ("- Name one ocean.".data)).options = some [] :=
  c5_claim.2.1 [] "Quiz" ("- Name one ocean.".data) (by decide)

/-- The avoidance-list block reads at most the first 15 past questions. -/
lemma pastQuestionsSection_take (p : List String) :
    pastQuestionsSection p = pastQuestionsSection (p.take 15) := by
  unfold pastQuestionsSection
  by_cases h : p = []
  · simp [h]
  · have h1 : p.isEmpty = false := by simpa using h
    have h2 : (p.take 15).isEmpty = false := by
      have : p.take 15 ≠ [] := by simp [List.take_eq_nil_iff, h]
      simpa using this
    rw [h1, h2, List.take_take]
    norm_num

/-- Claim C9 (confirmed): the prompt composer is deterministic — equal
(template, quota, past-questions, source-text) inputs give byte-identical
system and user instruction strings; the user instruction is the fixed
directive followed by exactly the first 4000 characters of the source
text; and the system instruction depends only on the first 15 past
questions. -/
theorem c9_claim :
    (∀ (t1 t2 : Template) (d1 d2 : DifficultyQuota) (p1 p2 : List String) (s1 s2 : String),
      t1 = t2 → d1 = d2 → p1 = p2 → s1 = s2 →
      systemPrompt t1 d1 p1 = systemPrompt t2 d2 p2 ∧ userPrompt s1 = userPrompt s2) ∧
      (∀ s : String,
        userPrompt s =
          "Generate a comprehensive question paper from: " ++ (s.data.take 4000).asString ∧
        (s.data.take 4000).length ≤ 4000) ∧
      (∀ (t : Template) (d : DifficultyQuota) (p : List String),
        systemPrompt t d p = systemPrompt t d (p.take 15)) := by
  refine ⟨?_, ?_, ?_⟩
  · intro t1 t2 d1 d2 p1 p2 s1 s2 ht hd hp hs
    subst ht; subst hd; subst hp; subst hs
    exact ⟨rfl, rfl⟩
  · intro s
    exact ⟨rfl, List.length_take_le 4000 s.data⟩
  · intro t d p
    unfold systemPrompt
    rw [pastQuestionsSection_take]

/-- Witness for C9 at concrete inputs. -/
theorem c9_witness :
    systemPrompt T5 ⟨30, 40, 30⟩ ["old q"] = systemPrompt T5 ⟨30, 40, 30⟩ ["old q"] ∧
      userPrompt "some source" = userPrompt "some source" :=
  c9_claim.1 T5 T5 ⟨30, 40, 30⟩ ⟨30, 40, 30⟩ ["old q"] ["old q"]
    "some source" "some source" rfl rfl rfl rfl

/-! ## Lemmas: whitespace normalization (claims C6 and C7) -/

lemma noDoubleWs_tail (c : Char) (t : List Char) (h : noDoubleWs (c :: t) = true) :
    noDoubleWs t = true := by
  cases t with
  | nil => rfl
  | cons d t2 =>
    simp only [noDoubleWs, Bool.and_eq_true] at h
    exact h.2

lemma collapseGo_noLead (l : List Char) : noLeadWs (collapseGo true l) = true := by
  induction l with
  | nil => rfl
  | cons c t ih =>
    by_cases h : pyIsSpace c = true
    · simpa [collapseGo, h] using ih
    · simp [collapseGo, h, noLeadWs]

lemma collapseGo_noDouble (l : List Char) (b : Bool) :
    noDoubleWs (collapseGo b l) = true := by
  induction l generalizing b with
  | nil => rfl
  | cons c t ih =>
    by_cases h : pyIsSpace c = true
    · cases b with
      | true => simpa [collapseGo, h] using ih true
      | false =>
        simp only [collapseGo, h, if_true]
        cases hx : collapseGo true t with
        | nil => rfl
        | cons d y =>
          have hlead := collapseGo_noLead t
          rw [hx] at hlead
          simp only [noLeadWs] at hlead
          simp only [noDoubleWs, Bool.and_eq_true]
          refine ⟨?_, by rw [← hx]; exact ih true⟩
          simp [hlead]
    · simp only [collapseGo, h, if_false]
      cases hx : collapseGo false t with
      | nil => rfl
      | cons d y =>
        simp only [noDoubleWs, Bool.and_eq_true]
        refine ⟨?_, by rw [← hx]; exact ih false⟩
        simp [h]

lemma dropWhileWs_noLead (l : List Char) : noLeadWs (l.dropWhile pyIsSpace) = true := by
  induction l with
  | nil => rfl
  | cons c t ih =>
    rw [List.dropWhile_cons]
    by_cases h : pyIsSpace c = true
    · simpa [h] using ih
    · simp [h, noLeadWs]

lemma noDoubleWs_dropWhile (p : Char → Bool) (l : List Char) (h : noDoubleWs l = true) :
    noDoubleWs (l.dropWhile p) = true := by
  induction l with
  | nil => exact h
  | cons c t ih =>
    rw [List.dropWhile_cons]
    by_cases hc : p c = true
    · simpa [hc] using ih (noDoubleWs_tail c t h)
    · simpa [hc] using h

lemma noDoubleWs_append (xs ys : List Char) (hx : noDoubleWs xs = true)
    (hy : noDoubleWs ys = true)
    (hj : ∀ a b, xs.getLast? = some a → ys.head? = some b →
      (pyIsSpace a && pyIsSpace b) = false) :
    noDoubleWs (xs ++ ys) = true := by
  induction xs with
  | nil => simpa using hy
  | cons c t ih =>
    cases t with
    | nil =>
      cases ys with
      | nil => rfl
      | cons b ys2 =>
        simp only [List.cons_append, List.nil_append]
        simp only [noDoubleWs, Bool.and_eq_true]
        refine ⟨?_, hy⟩
        simp [hj c b rfl rfl]
    | cons d t2 =>
      simp only [noDoubleWs, Bool.and_eq_true] at hx
      have ih2 := ih hx.2 (fun a b ha hb => hj a b (by rw [← ha, List.getLast?_cons_cons]) hb)
      simp only [List.cons_append] at ih2 ⊢
      simp only [noDoubleWs, Bool.and_eq_true]
      exact ⟨by simpa using hx.1, ih2⟩

lemma noDoubleWs_reverse (l : List Char) (h : noDoubleWs l = true) :
    noDoubleWs l.reverse = true := by
  induction l with
  | nil => rfl
  | cons c t ih =>
    rw [List.reverse_cons]
    apply noDoubleWs_append t.reverse [c] (ih (noDoubleWs_tail c t h)) (by rfl)
    intro a b ha hb
    rw [List.getLast?_reverse] at ha
    simp only [List.head?_cons, Option.some_inj] at hb
    subst hb
    cases t with
    | nil => simp at ha
    | cons x t2 =>
      simp only [List.head?_cons, Option.some_inj] at ha
      subst ha
      simp only [noDoubleWs, Bool.and_eq_true] at h
      have h1 := h.1
      rw [Bool.not_eq_true', Bool.and_comm] at h1
      exact h1

lemma dropTrailWs_prefixOf (l : List Char) : dropTrailWs l <+: l := by
  unfold dropTrailWs
  have h := List.dropWhile_suffix (l := l.reverse) pyIsSpace
  have h2 := List.reverse_prefix.mpr h
  simpa using h2

lemma noLeadWs_of_prefix (xs l : List Char) (hp : xs <+: l) (h : noLeadWs l = true) :
    noLeadWs xs = true := by
  cases xs with
  | nil => rfl
  | cons c t =>
    obtain ⟨r, hr⟩ := hp
    rw [← hr] at h
    simpa [noLeadWs] using h

lemma dropTrailWs_noTrail (l : List Char) : noTrailWs (dropTrailWs l) = true := by
  unfold noTrailWs dropTrailWs
  rw [List.reverse_reverse]
  exact dropWhileWs_noLead l.reverse

lemma dropTrailWs_noDouble (l : List Char) (h : noDoubleWs l = true) :
    noDoubleWs (dropTrailWs l) = true := by
  unfold dropTrailWs
  exact noDoubleWs_reverse _ (noDoubleWs_dropWhile _ _ (noDoubleWs_reverse _ h))

lemma normStripL_noDouble (l : List Char) : noDoubleWs (normStripL l) = true := by
  unfold normStripL pyStripL collapseWsL
  exact dropTrailWs_noDouble _ (noDoubleWs_dropWhile _ _ (collapseGo_noDouble l false))

lemma normStripL_noLead (l : List Char) : noLeadWs (normStripL l) = true := by
  unfold normStripL pyStripL
  exact noLeadWs_of_prefix _ _ (dropTrailWs_prefixOf _) (dropWhileWs_noLead _)

lemma normStripL_noTrail (l : List Char) : noTrailWs (normStripL l) = true := by
  unfold normStripL pyStripL
  exact dropTrailWs_noTrail _

lemma noLeadWs_append_left (ys zs : List Char) (hne : ys ≠ [])
    (h : noLeadWs ys = true) : noLeadWs (ys ++ zs) = true := by
  cases ys with
  | nil => exact absurd rfl hne
  | cons c t => simpa [noLeadWs] using h

lemma noTrailWs_append (xs ys : List Char) (hne : ys ≠ [])
    (h : noTrailWs ys = true) : noTrailWs (xs ++ ys) = true := by
  unfold noTrailWs at h ⊢
  rw [List.reverse_append]
  exact noLeadWs_append_left _ _ (by simpa using hne) h

lemma joinSp_ne_nil (y : List Char) (t : List (List Char)) (hy : y ≠ []) :
    joinSp (y :: t) ≠ [] := by
  cases t with
  | nil => simpa [joinSp] using hy
  | cons z t2 => simp [joinSp]

/-- Joining non-empty whitespace-normalized pieces with single spaces
yields a whitespace-normalized string. -/
lemma joinSp_clean (pieces : List (List Char))
    (h : ∀ x ∈ pieces, x ≠ [] ∧ noDoubleWs x = true ∧ noLeadWs x = true ∧ noTrailWs x = true) :
    noDoubleWs (joinSp pieces) = true ∧ noLeadWs (joinSp pieces) = true ∧
      noTrailWs (joinSp pieces) = true := by
  induction pieces with
  | nil => exact ⟨rfl, rfl, rfl⟩
  | cons x t ih =>
    cases t with
    | nil =>
      have hx := h x (List.mem_cons_self x [])
      exact ⟨hx.2.1, hx.2.2.1, hx.2.2.2⟩
    | cons y t2 =>
      have hx := h x (List.mem_cons_self _ _)
      have hrest := ih (fun z hz => h z (List.mem_cons_of_mem _ hz))
      have hjoin_ne : joinSp (y :: t2) ≠ [] :=
        joinSp_ne_nil y t2 (h y (List.mem_cons_of_mem _ (List.mem_cons_self _ _))).1
      have hshape : joinSp (x :: y :: t2) = x ++ (' ' :: joinSp (y :: t2)) := rfl
      rw [hshape]
      refine ⟨?_, ?_, ?_⟩
      · apply noDoubleWs_append _ _ hx.2.1
        · cases hj : joinSp (y :: t2) with
          | nil => rfl
          | cons d r =>
            simp only [noDoubleWs, Bool.and_eq_true]
            constructor
            · have := hrest.2.1
              rw [hj] at this
              simp only [noLeadWs] at this
              simp [this]
            · rw [← hj]
              exact hrest.1
        · intro a b ha hb
          simp only [List.head?_cons, Option.some_inj] at hb
          subst hb
          have hnt := hx.2.2.2
          unfold noTrailWs at hnt
          have hh : x.reverse.head? = some a := by
            rw [List.head?_eq_getLast?_reverse, List.reverse_reverse]
            exact ha
          cases hrev : x.reverse with
          | nil =>
            rw [hrev] at hh
            simp at hh
          | cons rc rt =>
            rw [hrev] at hh hnt
            simp only [List.head?_cons, Option.some_inj] at hh
            subst hh
            simp only [noLeadWs, Bool.not_eq_true'] at hnt
            simp [hnt]
      · exact noLeadWs_append_left _ _ hx.1 hx.2.2.1
      · apply noTrailWs_append
        · simp
        · unfold noTrailWs
          rw [List.reverse_cons]
          cases hj : joinSp (y :: t2) with
          | nil => exact absurd hj hjoin_ne
          | cons d r =>
            have := hrest.2.2
            unfold noTrailWs at this
            rw [hj] at this
            apply noLeadWs_append_left
            · simp [hj]
            · rw [← hj]
              unfold noTrailWs at hrest
              exact hrest.2.2

lemma noLeadWs_take (l : List Char) (n : Nat) (h : noLeadWs l = true) :
    noLeadWs (l.take n) = true := by
  cases l with
  | nil => simp [List.take_nil]; rfl
  | cons c t =>
    cases n with
    | zero => rfl
    | succ m => simpa [List.take_succ_cons, noLeadWs] using h

lemma noDoubleWs_take (l : List Char) (n : Nat) (h : noDoubleWs l = true) :
    noDoubleWs (l.take n) = true := by
  induction l generalizing n with
  | nil => rw [List.take_nil]; rfl
  | cons c t ih =>
    cases n with
    | zero => rfl
    | succ m =>
      rw [List.take_succ_cons]
      cases t with
      | nil => rw [List.take_nil]; rfl
      | cons d t2 =>
        cases m with
        | zero => rfl
        | succ m2 =>
          rw [List.take_succ_cons]
          simp only [noDoubleWs, Bool.and_eq_true] at h
          have ih2 := ih (m2 + 1) h.2
          rw [List.take_succ_cons] at ih2
          simp only [noDoubleWs, Bool.and_eq_true]
          exact ⟨h.1, ih2⟩

/-- Counterexample to C6 as stated: a document one of whose pages yields
no text (here the middle page) makes the single-space join produce two
consecutive spaces. -/
theorem c6_counterexample :
    extract_text_from_pdf ["a".data, "".data, "b".data] = "a  b".data ∧
      noDoubleWs (extract_text_from_pdf ["a".data, "".data, "b".data]) = false := by
  exact ⟨by decide, by decide⟩

/-- Claim C6 (corrected): provided every page's text normalizes (whitespace
collapse and strip) to a *non-empty* string, the extractor output — the
pages' normalized texts concatenated by a single separating space —
contains no two consecutive whitespace characters and no leading or
trailing whitespace.  A page normalizing to the empty string contributes
an empty piece, and the join then doubles the separator. -/
theorem c6_claim (pages : List (List Char)) (h : ∀ p ∈ pages, normStripL p ≠ []) :
    noDoubleWs (extract_text_from_pdf pages) = true ∧
      noLeadWs (extract_text_from_pdf pages) = true ∧
      noTrailWs (extract_text_from_pdf pages) = true := by
  unfold extract_text_from_pdf
  apply joinSp_clean
  intro x hx
  obtain ⟨p, hp, rfl⟩ := List.mem_map.mp hx
  exact ⟨h p hp, normStripL_noDouble p, normStripL_noLead p, normStripL_noTrail p⟩

/-- Witness for C6 at concrete pages with messy whitespace. -/
theorem c6_witness :
    noDoubleWs (extract_text_from_pdf ["  Hello \t world ".data, "page2  text".data]) = true ∧
      noLeadWs (extract_text_from_pdf ["  Hello \t world ".data, "page2  text".data]) = true ∧
      noTrailWs (extract_text_from_pdf ["  Hello \t world ".data, "page2  text".data]) = true :=
  c6_claim ["  Hello \t world ".data, "page2  text".data] (by decide)

/-- Counterexample to C7 as stated: the harvester's emptiness filter runs
on the *raw* captured text, before cleaning; a capture consisting of a
bracketed fragment only (here `" [x] "`) survives the filter and cleans
to the empty string, so the output contains an empty entry. -/
theorem c7_counterexample :
    extract_questions_from_past_papers [["Q1. [x] Q2. what is y?".data]] =
        [[], "what is y?".data] ∧
      [] ∈ extract_questions_from_past_papers [["Q1. [x] Q2. what is y?".data]] := by
  exact ⟨by decide, by decide⟩

/-- Claim C7 (corrected): every entry of the harvester's output is the
cleaning (bracket removal, whitespace collapse and strip, truncation to
500 characters) of a captured fragment whose *raw* text is not pure
whitespace; every entry has length at most 500, no two consecutive
whitespace characters and no leading whitespace.  Entries may however be
*empty* after cleaning: the non-emptiness filter tests the raw capture,
not the cleaned entry. -/
theorem c7_claim (pdfs : List (List (List Char))) (e : List Char)
    (he : e ∈ extract_questions_from_past_papers pdfs) :
    (∃ raw, (pyStripL raw).isEmpty = false ∧ e = clean_question raw) ∧
      e.length ≤ 500 ∧ noDoubleWs e = true ∧ noLeadWs e = true := by
  unfold extract_questions_from_past_papers at he
  rw [List.mem_flatMap] at he
  obtain ⟨pages, hpg, hmem⟩ := he
  rw [List.mem_map] at hmem
  obtain ⟨raw, hraw, rfl⟩ := hmem
  rw [List.mem_filter] at hraw
  refine ⟨⟨raw, by simpa using hraw.2, rfl⟩, ?_, ?_, ?_⟩
  · exact List.length_take_le _ _
  · exact noDoubleWs_take _ _ (normStripL_noDouble _)
  · exact noLeadWs_take _ _ (normStripL_noLead _)

/-- Witness for C7 at a concrete harvested entry. -/
theorem c7_witness :
    (∃ raw, (pyStripL raw).isEmpty = false ∧ "what is y?".data = clean_question raw) ∧
      ("what is y?".data).length ≤ 500 ∧ noDoubleWs "what is y?".data = true ∧
      noLeadWs "what is y?".data = true :=
  c7_claim [["Q1. [x] Q2. what is y?".data]] "what is y?".data (by decide)

/-! ## Lemmas: duplicate section headers (claim C10) -/

lemma dictGet_insert_self (n : String) (v : List Question)
    (d : List (String × List Question)) :
    dictGet n (dictInsert n v d) = some v := by
  induction d with
  | nil => simp [dictInsert, dictGet]
  | cons kv t ih =>
    obtain ⟨k2, v2⟩ := kv
    by_cases h : k2 = n
    · simp [dictInsert, dictGet, h]
    · have hb : (k2 == n) = false := by simpa using h
      simp [dictInsert, dictGet, hb, ih]

lemma dictGet_insert_ne (n k : String) (v : List Question)
    (d : List (String × List Question)) (h : k ≠ n) :
    dictGet n (dictInsert k v d) = dictGet n d := by
  induction d with
  | nil => simp [dictInsert, dictGet, h]
  | cons kv t ih =>
    obtain ⟨k2, v2⟩ := kv
    by_cases h2 : k2 = k
    · subst h2
      simp [dictInsert, dictGet, h, ih]
    · have hb : (k2 == k) = false := by simpa using h2
      by_cases h3 : k2 = n
      · subst h3
        simp [dictInsert, dictGet, hb]
      · have hb3 : (k2 == n) = false := by simpa using h3
        simp [dictInsert, dictGet, hb, hb3, ih]

/-- Commit of a truthy open section is a dict insertion. -/
lemma commitCur_some (m : String) (s : List (String × List Question))
    (qs : List Question) (h : (m == "") = false) :
    commitCur ⟨s, some m, qs⟩ = dictInsert m qs s := by
  simp [commitCur, h]

/-- The terminal/section commit preserves agreement of the value at key
`n` between two runs that differ only in the committed sections. -/
lemma commit_get_inv (n : String) (hn : n ≠ "")
    (s1 s2 : List (String × List Question)) (cur : Option String) (qs : List Question)
    (inv : cur = some n ∨ dictGet n s1 = dictGet n s2) :
    dictGet n (commitCur ⟨s1, cur, qs⟩) = dictGet n (commitCur ⟨s2, cur, qs⟩) := by
  cases inv with
  | inl h =>
    subst h
    have hb : (n == "") = false := by simpa using hn
    rw [commitCur_some n s1 qs hb, commitCur_some n s2 qs hb]
    rw [dictGet_insert_self, dictGet_insert_self]
  | inr heq =>
    cases cur with
    | none => simpa [commitCur] using heq
    | some m =>
      by_cases hm : m = ""
      · simp [commitCur, hm, heq]
      · have hb : (m == "") = false := by simpa using hm
        rw [commitCur_some m s1 qs hb, commitCur_some m s2 qs hb]
        by_cases hmn : m = n
        · subst hmn
          rw [dictGet_insert_self, dictGet_insert_self]
        · rw [dictGet_insert_ne _ _ _ _ hmn, dictGet_insert_ne _ _ _ _ hmn]
          exact heq

/-- Two parser runs that agree on the open section and the accumulator,
and whose committed sections agree at key `n` (or whose open section *is*
`n`), end with the same value at key `n`. -/
lemma foldGet_inv (tmpl : Template) (lines : List (List Char)) (n : String) (hn : n ≠ "") :
    ∀ (s1 s2 : List (String × List Question)) (cur : Option String) (qs : List Question),
      (cur = some n ∨ dictGet n s1 = dictGet n s2) →
      dictGet n (commitCur (List.foldl (stepPure tmpl) ⟨s1, cur, qs⟩ lines)) =
        dictGet n (commitCur (List.foldl (stepPure tmpl) ⟨s2, cur, qs⟩ lines)) := by
  induction lines with
  | nil =>
    intro s1 s2 cur qs inv
    exact commit_get_inv n hn s1 s2 cur qs inv
  | cons l ls ih =>
    intro s1 s2 cur qs inv
    rw [List.foldl_cons, List.foldl_cons]
    cases hh : headerMatchL (pyStripL l) with
    | some nm =>
      rw [stepPure_header tmpl ⟨s1, cur, qs⟩ l nm hh,
        stepPure_header tmpl ⟨s2, cur, qs⟩ l nm hh]
      by_cases hnm : nm.asString = n
      · exact ih _ _ _ _ (Or.inl (by rw [hnm]))
      · exact ih _ _ _ _ (Or.inr (commit_get_inv n hn s1 s2 cur qs inv))
    | none =>
      rw [stepPure_nonheader tmpl ⟨s1, cur, qs⟩ l hh,
        stepPure_nonheader tmpl ⟨s2, cur, qs⟩ l hh]
      exact ih _ _ _ _ inv

lemma dropWhile_eq_self_of_noLead (l : List Char) (h : noLeadWs l = true) :
    l.dropWhile pyIsSpace = l := by
  cases l with
  | nil => rfl
  | cons c t =>
    simp only [noLeadWs, Bool.not_eq_true'] at h
    simp [List.dropWhile_cons, h]

lemma pyStripL_no_edge_ws (l : List Char) (h1 : noLeadWs l = true)
    (h2 : noTrailWs l = true) : pyStripL l = l := by
  unfold pyStripL dropTrailWs
  rw [dropWhile_eq_self_of_noLead l h1]
  unfold noTrailWs at h2
  rw [dropWhile_eq_self_of_noLead l.reverse h2, List.reverse_reverse]

lemma findSubstr_after_stars (m : List Char) (h : ∀ c ∈ m, c ≠ '*') :
    findSubstrIdx "**".data (m ++ "**".data) = some m.length := by
  induction m with
  | nil => simp [findSubstrIdx, List.isPrefixOf]
  | cons c t ih =>
    have hc : c ≠ '*' := h c (List.mem_cons_self c t)
    have hb : ('*' == c) = false := by simpa using fun e => hc e.symm
    rw [List.cons_append]
    have hpre : "**".data.isPrefixOf (c :: (t ++ "**".data)) = false := by
      show (['*', '*'].isPrefixOf (c :: (t ++ "**".data))) = false
      simp [List.isPrefixOf, hb]
    unfold findSubstrIdx
    rw [hpre]
    simp only [Bool.false_eq_true, if_false]
    rw [ih (fun x hx => h x (List.mem_cons_of_mem c hx))]
    simp

/-- The canonical header line `**<n>**` for a star-free non-empty name
`n` strips to itself and matches the header pattern with group `n`. -/
lemma headerMatch_canonical (n : String) (hstar : ∀ c ∈ n.data, c ≠ '*') :
    headerMatchL (pyStripL ("**".data ++ n.data ++ "**".data)) = some n.data := by
  have hshape : "**".data ++ n.data ++ "**".data = '*' :: '*' :: (n.data ++ "**".data) := by
    simp
  have h1 : noLeadWs ("**".data ++ n.data ++ "**".data) = true := by
    rw [hshape]; rfl
  have h2 : noTrailWs ("**".data ++ n.data ++ "**".data) = true := by
    unfold noTrailWs
    rw [List.reverse_append]
    rfl
  rw [pyStripL_no_edge_ws _ h1 h2]
  unfold headerMatchL
  rw [hshape]
  have hpre : "**".data.isPrefixOf ('*' :: '*' :: (n.data ++ "**".data)) = true := by
    simp [List.isPrefixOf]
  rw [hpre]
  simp only [if_true]
  show (findSubstrIdx "**".data (n.data ++ "**".data)).map
      (fun i => (n.data ++ "**".data).take i) = some n.data
  rw [findSubstr_after_stars n.data hstar]
  simp only [Option.map_some']
  rw [List.take_left' rfl]

/-- Claim C10 (confirmed): when the input contains a section-header line
for name `n` (star-free, non-empty), the value the returned document maps
`n` to is entirely determined by the lines *after* that header — whatever
questions earlier lines accumulated under `n` are overwritten, so with
several headers of the same name the last occurrence wins. -/
theorem c10_claim (tmpl : Template) (p s : List (List Char)) (n : String)
    (hn : n ≠ "") (hstar : ∀ c ∈ n.data, c ≠ '*') :
    (parseLines tmpl (p ++ ("**".data ++ n.data ++ "**".data) :: s)).map
        (fun d => dictGet n d.sections) =
      (parseLines tmpl (("**".data ++ n.data ++ "**".data) :: s)).map
        (fun d => dictGet n d.sections) := by
  rw [parseLines_eq, parseLines_eq]
  simp only [Option.map_some']
  refine congrArg some ?_
  rw [List.foldl_append, List.foldl_cons, List.foldl_cons]
  have hmatch := headerMatch_canonical n hstar
  have hline : ∀ st : PState,
      stepPure tmpl st ("**".data ++ n.data ++ "**".data) = ⟨commitCur st, some n, []⟩ := by
    intro st
    rw [stepPure_header tmpl st _ n.data hmatch]
    rfl
  rw [hline, hline]
  exact foldGet_inv tmpl s n hn _ _ (some n) [] (Or.inl rfl)

/-- Witness for C10: an earlier "A" section with a question is overwritten
by the later header of the same name. -/
theorem c10_witness :
    (parseLines T0 (["**A**".data, "- q1 old".data] ++
        ("**".data ++ "A".data ++ "**".data) :: ["- q2 new".data])).map
        (fun d => dictGet "A" d.sections) =
      (parseLines T0 (("**".data ++ "A".data ++ "**".data) :: ["- q2 new".data])).map
        (fun d => dictGet "A" d.sections) :=
  c10_claim T0 ["**A**".data, "- q1 old".data] ["- q2 new".data] "A"
    (by decide) (by decide)

end SmartAcad
